import Mathlib

/-!
Verification development for the prior-authorization claims review dashboard.

The definitions below are shallow embeddings of the TypeScript source:
money values are modelled as rationals, strings as Lean strings, optional
(possibly `undefined`) fields as `Option`, and JavaScript truthiness on
strings (where only the empty string is falsy) via the `strOr`/`jsOrOpt`
helpers.  Each definition mirrors one function of the source
(`src/utils/pdfExtractor.ts`, `src/pages/Index.tsx`, the `PDFUploader` and
`ActionModal` components), keeping the source's names.
-/

namespace PriorAuth

/-- One timeline event, mirroring the `TimelineEntry` interface
(`src/types/claim.ts`). -/
structure TimelineEntry where
  date : String
  label : String
  user : Option String := none
  comment : Option String := none
deriving DecidableEq, Repr

/-- One billed procedure line, mirroring the `ClaimItem` interface
(`src/types/claim.ts`); fields that are optional in TypeScript are
`Option`s here. -/
structure ClaimItem where
  itemCode : String
  procedure : String
  amount : ℚ
  approvedAmt : Option ℚ := none
  qty : ℚ
  status : Option String := none
  statusHistory : List TimelineEntry
  reasonHistory : Option (List TimelineEntry) := none
  reason : Option String := none
  approvalStatus : Option String := none
  queryReason : Option String := none
deriving DecidableEq, Repr

/-- An uploaded document record, mirroring the `ClaimDocument` interface. -/
structure ClaimDocument where
  id : String
  name : String
  size : ℚ
  uploadDate : String
  url : Option String := none
deriving DecidableEq, Repr

/-- The claim aggregate, mirroring the `Claim` interface
(`src/types/claim.ts`). -/
structure Claim where
  claimId : String
  patientName : String
  dateOfService : String
  totalAmt : ℚ
  acceptedAmt : ℚ
  deniedAmt : ℚ
  documents : List ClaimDocument
  items : List ClaimItem
  statusHistory : List TimelineEntry
  approvalStatus : Option String := none
  approvalReason : Option String := none
  queryReason : Option String := none
deriving DecidableEq, Repr

/-- JavaScript `String.prototype.trim`: drop whitespace from both ends
(implemented on the character list so that it evaluates by kernel
reduction). -/
def jsTrim (s : String) : String :=
  String.mk (((s.toList.dropWhile (·.isWhitespace)).reverse.dropWhile (·.isWhitespace)).reverse)

/-- JavaScript `String.prototype.toUpperCase` on the character list. -/
def jsToUpper (s : String) : String := String.mk (s.toList.map Char.toUpper)

/-- JavaScript `a || b` on strings: only the empty string is falsy, so the
result is `a` unless `a` is empty. -/
def strOr (a b : String) : String := if a = "" then b else a

/-- JavaScript `a || b` where both sides are possibly-`undefined` strings:
the left side wins when it is defined and non-empty. -/
def jsOrOpt (a b : Option String) : Option String :=
  if a.getD "" = "" then b else a

/-- Model of `o?.trim()` followed by a falsy check: the trimmed string, with both
`undefined` and the empty string collapsing to `""`. -/
def optTrim (o : Option String) : String := jsTrim (o.getD "")

/-- A value of unknown dynamic type fed to the currency normalizer:
a number, a string, or anything else (`null`, `undefined`, objects). -/
inductive CurrVal where
  | num (v : ℚ)
  | str (s : String)
  | null
deriving DecidableEq, Repr

/-- The character filter of `value.replace(/[^0-9.-]/g, '')`: keep digits,
the dot and the minus sign. -/
def stripCurrency (s : String) : String :=
  String.mk (s.toList.filter fun c => c.isDigit || c == '.' || c == '-')

/-- Decimal value of a digit list, most significant first. -/
def digitsToNat (ds : List Char) : Nat :=
  ds.foldl (fun n c => 10 * n + (c.toNat - '0'.toNat)) 0

/-- JavaScript `parseFloat`, restricted to the fragment reachable from the
currency normalizer (its inputs contain only digits, dots and minus signs,
so no exponents or infinities can occur): skip leading whitespace, read an
optional sign, an integer digit run and an optional fractional run, ignore
the rest, and return `none` (for `NaN`) when no digit was read. -/
def jsParseFloat (s : String) : Option ℚ :=
  let cs := s.toList.dropWhile (·.isWhitespace)
  let sign : ℚ := if cs.head? = some '-' then -1 else 1
  let cs1 := if cs.head? = some '-' || cs.head? = some '+' then cs.tail else cs
  let intDs := cs1.takeWhile (·.isDigit)
  let rest := cs1.drop intDs.length
  let fracDs := if rest.head? = some '.' then rest.tail.takeWhile (·.isDigit) else []
  if intDs.isEmpty && fracDs.isEmpty then none
  else some (sign * ((digitsToNat intDs : ℚ) + (digitsToNat fracDs : ℚ) / 10 ^ fracDs.length))

/-- The `normalizeCurrencyValue` helper of `src/utils/pdfExtractor.ts`: numbers pass
through, strings are stripped to `[0-9.-]`, trimmed and parsed, anything
else (and a parse failure) becomes `0`. -/
def normalizeCurrencyValue : CurrVal → ℚ
  | .num v => v
  | .str s => (jsParseFloat (jsTrim (stripCurrency s))).getD 0
  | .null => 0

/-- A raw line item as returned by the extraction model, before the
post-processing in `extractDataWithOpenAI`: currency fields may be numbers
or strings, and the text fields may be `undefined`. -/
structure RawItem where
  itemCode : String := ""
  procedure : String := ""
  amount : CurrVal := .null
  approvedAmt : CurrVal := .null
  qty : ℚ := 0
  status : Option String := none
  approvalStatus : Option String := none
  reason : Option String := none
  queryReason : Option String := none
deriving DecidableEq, Repr

/-- The loosely-typed `ExtractedData` bag returned by the extraction model
(`src/utils/pdfExtractor.ts`): every field is optional. -/
structure ExtractedData where
  claimId : Option String := none
  patientName : Option String := none
  dateOfService : Option String := none
  totalAmt : Option ℚ := none
  acceptedAmt : Option ℚ := none
  deniedAmt : Option ℚ := none
  items : List RawItem := []
  status : Option String := none
  reason : Option String := none
  queryReason : Option String := none
  preApprovalStatus : Option String := none
  additionalInfoRequired : Option String := none
  shortfallRemarks : Option String := none
deriving DecidableEq, Repr

/-- The `hasAdditionalInfo` flag of `extractDataWithOpenAI`: the
claim-level `additionalInfoRequired` or `queryReason` is truthy, trims to
something non-empty, and is not exactly the sentinel `"-"`. -/
def hasAdditionalInfoB (ed : ExtractedData) : Bool :=
  let ai := ed.additionalInfoRequired.getD ""
  let qr := ed.queryReason.getD ""
  (ai != "" && jsTrim ai != "" && ai != "-") || (qr != "" && jsTrim qr != "" && qr != "-")

/-- First post-processing step of `extractDataWithOpenAI`: promote
`additionalInfoRequired` into `queryReason` when the latter is blank or the
sentinel `"-"`, then force the claim-level status to `Query Raised` when
additional information is requested while the status reads `Approved` or
`Partially Approved`. -/
def postProcessExtracted (ed : ExtractedData) : ExtractedData :=
  let ai := ed.additionalInfoRequired.getD ""
  let qr := ed.queryReason.getD ""
  let qr1 : Option String :=
    if ai != "" && jsTrim ai != "" && (qr == "" || jsTrim qr == "" || qr == "-") then
      some (jsTrim ai)
    else ed.queryReason
  let ed1 := { ed with queryReason := qr1 }
  let st1 : Option String :=
    if hasAdditionalInfoB ed1 && ed1.status.getD "" != "" &&
        (ed1.status.getD "" == "Approved" || ed1.status.getD "" == "Partially Approved") then
      some "Query Raised"
    else ed1.status
  { ed1 with status := st1 }

/-- The claim-level query text used as per-item fallback in
`extractDataWithOpenAI`: `queryReason?.trim() || additionalInfoRequired?.trim() || ''`. -/
def claimLevelQueryReason (ed : ExtractedData) : String :=
  strOr (optTrim ed.queryReason) (optTrim ed.additionalInfoRequired)

/-- The trimmed claim-level `additionalInfoRequired`. -/
def claimLevelAdditionalInfo (ed : ExtractedData) : String :=
  optTrim ed.additionalInfoRequired

/-- The `shouldUseAdditionalInfo` flag of the per-item resolution in
`extractDataWithOpenAI`. -/
def shouldUseAdditionalInfoB (ed : ExtractedData) : Bool :=
  claimLevelAdditionalInfo ed != "" && claimLevelAdditionalInfo ed != "-"

/-- The `normalizedReason` of one item in `extractDataWithOpenAI`: the
item-level reason, else the claim-level reason, else (when present) the
claim-level `additionalInfoRequired`, with `"-"` treated as empty at every
step. -/
def itemNormReason (ed : ExtractedData) (item : RawItem) : String :=
  let itemReason := optTrim item.reason
  let claimReason := optTrim ed.reason
  if itemReason != "" && itemReason != "-" then itemReason
  else if claimReason != "" && claimReason != "-" then claimReason
  else if shouldUseAdditionalInfoB ed then claimLevelAdditionalInfo ed
  else ""

/-- The `normalizedQueryReason` of one item in `extractDataWithOpenAI`:
item-level query reason first, then the claim-level query reason, then the
claim-level `additionalInfoRequired` as a final fallback. -/
def itemNormQueryReason (ed : ExtractedData) (item : RawItem) : String :=
  let itemQR := optTrim item.queryReason
  if itemQR != "" && itemQR != "-" then itemQR
  else if claimLevelQueryReason ed != "" && claimLevelQueryReason ed != "-" then
    claimLevelQueryReason ed
  else if shouldUseAdditionalInfoB ed then claimLevelAdditionalInfo ed
  else ""

/-- The query-signal disjunction guarding the `Query Raised` branch of the
per-item status cascade in `extractDataWithOpenAI`:
`hasItemQuery || hasClaimLevelQuery || shouldUseAdditionalInfo`. -/
def itemQuerySignal (ed : ExtractedData) (item : RawItem) : Bool :=
  let itemQueryReason := jsTrim (strOr (optTrim item.queryReason) (claimLevelQueryReason ed))
  (itemQueryReason != "" && itemQueryReason != "-") || hasAdditionalInfoB ed ||
    shouldUseAdditionalInfoB ed

/-- The `(finalStatus, finalReason, finalQueryReason)` cascade of
`extractDataWithOpenAI` (its PRIORITY 1-4 comments): a positive approved
amount wins and clears both texts, then a denial reason, then any query
signal, then the optimistic `Approved` default which also clears both
texts. -/
def finalTripleOf (ed : ExtractedData) (item : RawItem) : String × String × String :=
  let napp := normalizeCurrencyValue item.approvedAmt
  if 0 < napp then ("Approved", "", "")
  else if napp = 0 ∧ itemNormReason ed item ≠ "" then
    ("Denied", itemNormReason ed item, itemNormQueryReason ed item)
  else if napp = 0 ∧ itemQuerySignal ed item = true then
    ("Query Raised", itemNormReason ed item, itemNormQueryReason ed item)
  else ("Approved", "", "")

/-- The per-item map body of `extractDataWithOpenAI` (its
`extractedData.items.map` at the end): normalize the currency fields,
resolve the status by the priority cascade, align `approvalStatus` with it,
and seed the item histories.  `ed` is the post-processed extraction bag and
`nowIso` stands for `new Date().toISOString()`. -/
def resolveItem (ed : ExtractedData) (nowIso : String) (item : RawItem) : ClaimItem :=
  let napp := normalizeCurrencyValue item.approvedAmt
  let nraw := normalizeCurrencyValue item.amount
  let namount := if 0 < nraw then nraw else napp
  let triple := finalTripleOf ed item
  let finalStatus := triple.1
  let finalReason := triple.2.1
  let finalQueryReason := triple.2.2
  let normalizedApprovalStatus :=
    if finalStatus == "Query Raised" then "Query Raised"
    else if finalStatus == "Approved" then "Approved"
    else if finalStatus == "Denied" then "Denied"
    else
      let v := optTrim item.approvalStatus
      if v != "" && v != "-" then v else finalStatus
  { itemCode := item.itemCode
    procedure := item.procedure
    amount := namount
    approvedAmt := some napp
    qty := item.qty
    status := some finalStatus
    statusHistory := [{ date := strOr (ed.dateOfService.getD "") nowIso, label := finalStatus }]
    reasonHistory :=
      if finalReason != "" || finalQueryReason != "" then
        some [{ date := nowIso, label := finalStatus,
                comment := some (strOr finalQueryReason finalReason) }]
      else none
    reason := some finalReason
    approvalStatus :=
      some (if finalStatus == "Approved" then "Approved"
            else if finalStatus == "Denied" then "Denied"
            else normalizedApprovalStatus)
    queryReason := some finalQueryReason }

/-- The extraction bag after the whole post-processing tail of
`extractDataWithOpenAI`: claim-level fixups plus per-item resolution. -/
structure ProcessedData where
  claimId : Option String := none
  patientName : Option String := none
  dateOfService : Option String := none
  totalAmt : Option ℚ := none
  acceptedAmt : Option ℚ := none
  deniedAmt : Option ℚ := none
  items : List ClaimItem := []
  status : Option String := none
  reason : Option String := none
  queryReason : Option String := none
  additionalInfoRequired : Option String := none
deriving DecidableEq, Repr

/-- The tail of `extractDataWithOpenAI` after a successful model call: post-process the
claim-level fields and resolve every item. -/
def processExtracted (ed : ExtractedData) (nowIso : String) : ProcessedData :=
  let e := postProcessExtracted ed
  { claimId := e.claimId
    patientName := e.patientName
    dateOfService := e.dateOfService
    totalAmt := e.totalAmt
    acceptedAmt := e.acceptedAmt
    deniedAmt := e.deniedAmt
    items := e.items.map (resolveItem e nowIso)
    status := e.status
    reason := e.reason
    queryReason := e.queryReason
    additionalInfoRequired := e.additionalInfoRequired }

/-- The case-insensitive trimmed item-code key used by
`mergeItemsFromSources`: `itemCode.trim().toUpperCase()`. -/
def itemKey (s : String) : String := jsToUpper (jsTrim s)

/-- Insertion into the `claimMap` of `mergeItemsFromSources`, modelled as a
lookup function: `Map.set` overwrites the previous binding of the key. -/
def claimMapInsert (m : String → Option ClaimItem) (k : String) (v : ClaimItem) :
    String → Option ClaimItem :=
  fun q => if q = k then some v else m q

/-- The `claimMap` built by `mergeItemsFromSources` over the claim-document
items: items with a falsy (empty) `itemCode` are skipped, later items with
the same key overwrite earlier ones. -/
def buildClaimMap (claimItems : List ClaimItem) : String → Option ClaimItem :=
  claimItems.foldl
    (fun m it => if it.itemCode != "" then claimMapInsert m (itemKey it.itemCode) it else m)
    (fun _ => none)

/-- The `mergeItemsFromSources` function of `src/utils/pdfExtractor.ts`: when the
query/approval collection is non-empty, map over it, pulling `amount` and
`qty` from the matching claim-document item (matched by the trimmed
upper-cased item code) when one exists; otherwise pass the claim-document
collection through unchanged. -/
def mergeItemsFromSources (claimItems queryItems : List ClaimItem) : List ClaimItem :=
  if queryItems.length > 0 then
    let m := buildClaimMap claimItems
    queryItems.map fun item =>
      let key := itemKey item.itemCode
      let claimMatch := if key != "" then m key else none
      { item with
        amount := (claimMatch.map (·.amount)).getD item.amount
        qty := (claimMatch.map (·.qty)).getD item.qty }
  else claimItems

/-- The merge-time re-resolution applied to every merged item inside
`processClaimAndQueryPDFs` when the query document requests additional
information (the `hasAdditionalInfo && mergedItems.length > 0` block):
recompute reason, query reason and status by the same approved-amount-first
cascade and extend the item histories.  `queryReasonLvl` is the claim-level
query text computed just above the block, `addInfo` the trimmed
`additionalInfoRequired`, and `qr` the query document's extraction bag. -/
def requeryItem (qr : ProcessedData) (addInfo queryReasonLvl nowIso : String)
    (item : ClaimItem) : ClaimItem :=
  let hasAddInfo := addInfo != "" && addInfo != "-"
  let itemReason := optTrim item.reason
  let itemQueryReason := jsTrim (strOr (optTrim item.queryReason) queryReasonLvl)
  let finalReason0 :=
    if itemReason != "" && itemReason != "-" then itemReason
    else
      let claimReason := optTrim qr.reason
      if claimReason != "" && claimReason != "-" then claimReason
      else if hasAddInfo then addInfo
      else ""
  let finalQueryReason0 :=
    if itemQueryReason != "" && itemQueryReason != "-" then itemQueryReason
    else if hasAddInfo then addInfo
    else ""
  let itemApprovedAmt := item.approvedAmt.getD 0
  let triple :=
    if 0 < itemApprovedAmt then ("Approved", "", "")
    else if itemApprovedAmt = 0 ∧ finalReason0 ≠ "" then
      ("Denied", finalReason0, finalQueryReason0)
    else if itemApprovedAmt = 0 ∧ finalQueryReason0 ≠ "" then
      ("Query Raised", finalReason0, finalQueryReason0)
    else if itemApprovedAmt = 0 ∧ hasAddInfo = true then
      ("Query Raised", finalReason0, finalQueryReason0)
    else ("Approved", "", "")
  let finalStatus := triple.1
  let finalReason := triple.2.1
  let finalQueryReason := triple.2.2
  { item with
    queryReason := some finalQueryReason
    reason := some finalReason
    status := some finalStatus
    approvalStatus := some finalStatus
    statusHistory := item.statusHistory ++ [{ date := nowIso, label := finalStatus }]
    reasonHistory :=
      if finalReason != "" || finalQueryReason != "" then
        some ((item.reasonHistory.getD []) ++
          [{ date := nowIso, label := finalStatus,
             comment := some (strOr finalQueryReason finalReason) }])
      else item.reasonHistory }

/-- The merged document-set record returned by `processClaimAndQueryPDFs`. -/
structure SetResult where
  claimId : String
  patientName : String
  dateOfService : String
  totalAmt : ℚ
  acceptedAmt : ℚ
  deniedAmt : ℚ
  items : List ClaimItem
  approvalStatus : Option String := none
  approvalReason : Option String := none
  queryReason : String := ""
  documents : List ClaimDocument := []
deriving DecidableEq, Repr

/-- The merge tail of `processClaimAndQueryPDFs` once both extractions have
succeeded: validate the patient name, take `acceptedAmt` from the query
document only, recompute `totalAmt` from the claim-document item amounts,
merge the item collections and, when additional information is requested,
re-resolve every merged item.  `d1`/`d2` are the document records built
from the uploaded files, `fallbackId` the generated
`CLM-<year>-<digits>` fallback claim id, `today` the date part of the
current time and `nowIso` its ISO timestamp. -/
def assembleSet (cr qr : ProcessedData) (d1 d2 : ClaimDocument)
    (fallbackId today nowIso : String) : Except String SetResult :=
  if cr.patientName.getD "" = "" then
    .error "Claim PDF must contain a valid Patient Name"
  else
    let acceptedAmt := qr.acceptedAmt.getD 0
    let deniedAmt := (qr.deniedAmt.orElse fun _ => cr.deniedAmt).getD 0
    let additionalInfoRequired := optTrim qr.additionalInfoRequired
    let queryReason :=
      strOr (strOr (optTrim qr.queryReason) additionalInfoRequired) (optTrim qr.reason)
    let hasAdditionalInfo := additionalInfoRequired != "" && additionalInfoRequired != "-"
    let mergedItems0 := mergeItemsFromSources cr.items qr.items
    let mergedItems :=
      if hasAdditionalInfo && mergedItems0.length > 0 then
        mergedItems0.map (requeryItem qr additionalInfoRequired queryReason nowIso)
      else mergedItems0
    let itemsSum := (cr.items.map (·.amount)).sum
    .ok
      { claimId := strOr (cr.claimId.getD "") fallbackId
        patientName := cr.patientName.getD ""
        dateOfService := strOr (cr.dateOfService.getD "") today
        totalAmt := if itemsSum ≠ 0 then itemsSum else cr.totalAmt.getD 0
        acceptedAmt := acceptedAmt
        deniedAmt := deniedAmt
        items := mergedItems
        approvalStatus :=
          if qr.status.getD "" != "" then qr.status
          else if hasAdditionalInfo then some "Query Raised"
          else none
        approvalReason := qr.reason
        queryReason := queryReason
        documents := [d1, d2] }

/-- Model of `Promise.all` over the two per-document extraction calls of
`processClaimAndQueryPDFs`: if either call fails the whole join fails with
a single error (modelled as the first failing component). -/
def promiseAll2 {α β : Type} :
    Except String α → Except String β → Except String (α × β)
  | .error e, _ => .error e
  | .ok _, .error e => .error e
  | .ok a, .ok b => .ok (a, b)

/-- The `processClaimAndQueryPDFs` flow from the point where the two extraction
promises are joined: any extraction failure aborts the whole set. -/
def processClaimAndQueryPDFs (ec eq : Except String ProcessedData)
    (d1 d2 : ClaimDocument) (fallbackId today nowIso : String) :
    Except String SetResult :=
  match promiseAll2 ec eq with
  | .error e => .error e
  | .ok (cr, qr) => assembleSet cr qr d1 d2 fallbackId today nowIso

/-- The `newClaimData` record assembled inside `processFiles`
(`PDFUploader` component) from a processed document set; its fields are
optional because the `mergeClaimData` helper below is typed against
optional fields. -/
structure NewClaimData where
  claimId : Option String := none
  patientName : String
  dateOfService : Option String := none
  totalAmt : Option ℚ := none
  acceptedAmt : Option ℚ := none
  deniedAmt : Option ℚ := none
  documents : List ClaimDocument := []
  items : List ClaimItem := []
  approvalStatus : Option String := none
  approvalReason : Option String := none
  queryReason : Option String := none
  statusHistory : List TimelineEntry := []
deriving DecidableEq, Repr

/-- Two timeline entries collide for deduplication purposes when they agree
on `date` and `label` (the check used by the uploader merge). -/
def sameDateLabel (a b : TimelineEntry) : Bool :=
  a.date == b.date && a.label == b.label

/-- The per-item update of the uploader `mergeClaimData`:
`{...existingItem, ...newItem}` (every field of the resolved new item wins)
except that the two histories are concatenations deduplicated by
`(date, label)` against the existing entries. -/
def mergeOneItem (existingItem newItem : ClaimItem) : ClaimItem :=
  { newItem with
    statusHistory :=
      existingItem.statusHistory ++
        newItem.statusHistory.filter
          (fun e => !(existingItem.statusHistory.any (sameDateLabel · e)))
    reasonHistory :=
      some ((existingItem.reasonHistory.getD []) ++
        (newItem.reasonHistory.getD []).filter
          (fun e => !((existingItem.reasonHistory.getD []).any (sameDateLabel · e)))) }

/-- The item-collection merge of the uploader `mergeClaimData`: walk the
new items, updating the first existing item with the same `itemCode` or
appending when the code is unseen. -/
def mergeItemsList (existingItems : List ClaimItem) (newItems : List ClaimItem) :
    List ClaimItem :=
  newItems.foldl
    (fun acc newItem =>
      match acc.findIdx? (fun it => it.itemCode == newItem.itemCode) with
      | some i =>
        acc.set i (mergeOneItem ((acc.get? i).getD newItem) newItem)
      | none => acc ++ [newItem])
    existingItems

/-- The `mergeClaimData` helper of the `PDFUploader` component: merge a new document
set into the existing claim for the same patient.  Amount fields prefer the
new data, documents are appended only when no document with the same file
name exists, items are merged by `itemCode`, and both the claim-level
status history and the per-item histories are deduplicated by exact
`(date, label)` equality. -/
def uploaderMergeClaimData (existingClaim : Claim) (nd : NewClaimData) : Claim :=
  { existingClaim with
    claimId := strOr (nd.claimId.getD "") existingClaim.claimId
    patientName := nd.patientName
    dateOfService := strOr (nd.dateOfService.getD "") existingClaim.dateOfService
    totalAmt := nd.totalAmt.getD existingClaim.totalAmt
    acceptedAmt := nd.acceptedAmt.getD existingClaim.acceptedAmt
    deniedAmt := nd.deniedAmt.getD existingClaim.deniedAmt
    documents :=
      existingClaim.documents ++
        nd.documents.filter
          (fun d => !(existingClaim.documents.any (fun d' => d'.name == d.name)))
    items := mergeItemsList existingClaim.items nd.items
    statusHistory :=
      existingClaim.statusHistory ++
        nd.statusHistory.filter
          (fun e => !(existingClaim.statusHistory.any (sameDateLabel · e)))
    approvalStatus :=
      match nd.approvalStatus with
      | some v => some v
      | none => existingClaim.approvalStatus
    approvalReason :=
      match nd.approvalReason with
      | some v => some v
      | none => existingClaim.approvalReason
    queryReason := jsOrOpt nd.queryReason existingClaim.queryReason }

/-- The `newClaimData` built by `processFiles` from the merged set result:
all scalar fields are present, and the seeded status history carries the
approval status (defaulting to `Submitted`) with the approval reason as
comment. -/
def newClaimDataOf (r : SetResult) (nowIso : String) : NewClaimData :=
  { claimId := some r.claimId
    patientName := r.patientName
    dateOfService := some r.dateOfService
    totalAmt := some r.totalAmt
    acceptedAmt := some r.acceptedAmt
    deniedAmt := some r.deniedAmt
    documents := r.documents
    items := r.items
    approvalStatus := r.approvalStatus
    approvalReason := r.approvalReason
    queryReason := some r.queryReason
    statusHistory :=
      [{ date := nowIso
         label := strOr (r.approvalStatus.getD "") "Submitted"
         user := some "System"
         comment := if r.approvalReason.getD "" = "" then none else r.approvalReason }] }

/-- The brand-new claim built by `processFiles` when no existing claim
matches the patient name. -/
def newClaimOf (nd : NewClaimData) : Claim :=
  { claimId := nd.claimId.getD ""
    patientName := nd.patientName
    dateOfService := nd.dateOfService.getD ""
    totalAmt := nd.totalAmt.getD 0
    acceptedAmt := nd.acceptedAmt.getD 0
    deniedAmt := nd.deniedAmt.getD 0
    documents := nd.documents
    items := nd.items
    statusHistory := nd.statusHistory
    approvalStatus := nd.approvalStatus
    approvalReason := nd.approvalReason
    queryReason := nd.queryReason }

/-- Replace the first claim satisfying `p` with `f` of it, leaving every
other claim untouched (the `findIndex` + assignment step of
`processFiles`). -/
def updateFirstClaim (p : Claim → Bool) (f : Claim → Claim) : List Claim → List Claim
  | [] => []
  | c :: rest => if p c then f c :: rest else c :: updateFirstClaim p f rest

/-- The claim-collection update of `processFiles` (`PDFUploader`): find an
existing claim by exact `patientName` equality; merge into it when found,
append exactly one new claim otherwise. -/
def processFiles (currentClaims : List Claim) (r : SetResult) (nowIso : String) :
    List Claim :=
  let nd := newClaimDataOf r nowIso
  if currentClaims.any (fun c => c.patientName == r.patientName) then
    updateFirstClaim (fun c => c.patientName == r.patientName)
      (fun c => uploaderMergeClaimData c nd) currentClaims
  else currentClaims ++ [newClaimOf nd]

/-- The whole upload path: join the parallel extraction results, run the
document-set merge, and update the claim collection.  On any failure the
original collection is returned together with the error message, exactly as
`processFiles` catches the rejection and leaves the claims untouched. -/
def processFilesRun (currentClaims : List Claim)
    (ec eq : Except String ProcessedData) (d1 d2 : ClaimDocument)
    (fallbackId today nowIso : String) : List Claim × Option String :=
  match processClaimAndQueryPDFs ec eq d1 d2 fallbackId today nowIso with
  | .error e => (currentClaims, some e)
  | .ok r =>
    if r.patientName = "" then
      (currentClaims, some "Failed to extract patient name from Claim PDF.")
    else (processFiles currentClaims r nowIso, none)

/-- Zero-padded claim counter for the generated
`CLM-<year>-<counter>` fallback id of the claimId-keyed `mergeClaimData`. -/
def padThree (n : Nat) : String :=
  let s := toString n
  String.mk (List.replicate (3 - s.length) '0') ++ s

/-- The new claim built by the claimId-keyed `mergeClaimData`
(`src/utils/pdfExtractor.ts`) for either creation branch; `cid` is the
claim id chosen by the caller (extracted or generated), `today` the date
part of the current time and `nowIso` its ISO timestamp. -/
def extractorNewClaim (ed : ProcessedData) (cid : String) (doc : ClaimDocument)
    (today nowIso : String) : Claim :=
  { claimId := cid
    patientName := strOr (ed.patientName.getD "") "Unknown Patient"
    dateOfService := strOr (ed.dateOfService.getD "") today
    totalAmt := ed.totalAmt.getD 0
    acceptedAmt := ed.acceptedAmt.getD 0
    deniedAmt := ed.deniedAmt.getD 0
    documents := [doc]
    items := ed.items
    approvalStatus := ed.status
    approvalReason := ed.reason
    queryReason := jsOrOpt ed.queryReason ed.additionalInfoRequired
    statusHistory :=
      [{ date := nowIso
         label := strOr (ed.status.getD "") "Submitted"
         user := some "System"
         comment := jsOrOpt (jsOrOpt ed.queryReason ed.additionalInfoRequired) ed.reason }] }

/-- The update-existing branch of the claimId-keyed `mergeClaimData`:
append the document if its file name is new; append a claim-level status
entry (propagated into every item history) only when the extracted status
differs from the label of the most recent entry; append items whose
`itemCode` is unseen; and overwrite the three amount fields when the
extraction provides them. -/
def extractorMergeIntoExisting (ex : Claim) (ed : ProcessedData)
    (doc : ClaimDocument) (nowIso : String) : Claim :=
  let ex1 :=
    if ex.documents.any (fun d => d.name == doc.name) then ex
    else { ex with documents := ex.documents ++ [doc] }
  let s := ed.status.getD ""
  let ex2 :=
    if s != "" then
      let newEntry : TimelineEntry :=
        { date := nowIso, label := s, user := some "System", comment := ed.reason }
      if ex1.statusHistory.getLast?.all (fun l => l.label != s) then
        { ex1 with
          statusHistory := ex1.statusHistory ++ [newEntry]
          items := ex1.items.map fun it =>
            { it with
              statusHistory :=
                it.statusHistory ++ [{ date := nowIso, label := s, user := some "System" }]
              reasonHistory :=
                if ed.reason.getD "" != "" then
                  some ((it.reasonHistory.getD []) ++ [newEntry])
                else it.reasonHistory } }
      else ex1
    else ex1
  let ex3 :=
    { ex2 with
      items := ed.items.foldl
        (fun (acc : List ClaimItem) (ni : ClaimItem) =>
          if acc.any (fun it => it.itemCode == ni.itemCode) then acc else acc ++ [ni])
        ex2.items }
  { ex3 with
    totalAmt := ed.totalAmt.getD ex3.totalAmt
    acceptedAmt := ed.acceptedAmt.getD ex3.acceptedAmt
    deniedAmt := ed.deniedAmt.getD ex3.deniedAmt }

/-- The claimId-keyed `mergeClaimData` of `src/utils/pdfExtractor.ts`
(single-document upload path): without a claim id, append a new claim under
a generated id; with an unseen claim id, append a new claim; otherwise
merge into the first claim carrying that id. -/
def extractorMergeClaimData (existingClaims : List Claim) (ed : ProcessedData)
    (doc : ClaimDocument) (year today nowIso : String) : List Claim :=
  if ed.claimId.getD "" = "" then
    let newClaimId := "CLM-" ++ year ++ "-" ++ padThree (existingClaims.length + 1)
    existingClaims ++ [extractorNewClaim ed newClaimId doc today nowIso]
  else
    let cid := ed.claimId.getD ""
    if existingClaims.any (fun c => c.claimId == cid) then
      updateFirstClaim (fun c => c.claimId == cid)
        (fun c => extractorMergeIntoExisting c ed doc nowIso) existingClaims
    else existingClaims ++ [extractorNewClaim ed cid doc today nowIso]

/-- The reviewer actions of `handleClaimAction` (`src/pages/Index.tsx`). -/
inductive ClaimAction where
  | approve
  | query
  | deny
  | delete
  | sendToDoctor
  | sendToMedicalRecords
  | requestDocuments
deriving DecidableEq, Repr

/-- The status label written by `handleClaimAction` for each action (the
`switch` has no `delete` case, leaving the initial empty string). -/
def statusLabelOf : ClaimAction → String
  | .approve => "Approved"
  | .query => "Query Raised"
  | .deny => "Denied"
  | .sendToDoctor => "Sent to Doctor"
  | .sendToMedicalRecords => "Sent to Medical Records"
  | .requestDocuments => "Documents Requested"
  | .delete => ""

/-- The reason-entry label used by `handleClaimAction` for the commenting
actions. -/
def reasonLabelOf : ClaimAction → String
  | .query => "Query Raised"
  | .deny => "Denial Reason"
  | .sendToDoctor => "Sent to Doctor"
  | .sendToMedicalRecords => "Sent to Medical Records"
  | _ => "Documents Requested"

/-- The five actions for which both `handleClaimAction` attaches a reason
entry and the `ActionModal` requires a comment. -/
def isCommentAction : ClaimAction → Bool
  | .query | .deny | .sendToDoctor | .sendToMedicalRecords | .requestDocuments => true
  | _ => false

/-- The per-item targeting test of `handleClaimAction`:
`if (itemCode && item.itemCode !== itemCode) return item;` — with no item
code (or the falsy empty string) every item is targeted. -/
def targetedItem (itemCode : Option String) (it : ClaimItem) : Bool :=
  match itemCode with
  | none => true
  | some code => code == "" || it.itemCode == code

/-- The per-item mutation of `handleClaimAction`: targeted items get the
new status entry, the optional reason entry, and the action's amount effect
(`approve` copies `amount` into `approvedAmt`; `query` and `deny` zero
it). -/
def updateItemForAction (action : ClaimAction) (newStatusEntry : TimelineEntry)
    (newReasonEntry : Option TimelineEntry) (itemCode : Option String)
    (it : ClaimItem) : ClaimItem :=
  if targetedItem itemCode it then
    let it1 := { it with statusHistory := it.statusHistory ++ [newStatusEntry] }
    let it2 :=
      match newReasonEntry with
      | some e => { it1 with reasonHistory := some ((it.reasonHistory.getD []) ++ [e]) }
      | none => it1
    match action with
    | .approve => { it2 with approvedAmt := some it2.amount }
    | .query => { it2 with approvedAmt := some 0 }
    | .deny => { it2 with approvedAmt := some 0 }
    | _ => it2
  else it

/-- The `newStatusEntry` of `handleClaimAction`. -/
def actionStatusEntry (action : ClaimAction) (nowIso : String) : TimelineEntry :=
  { date := nowIso, label := statusLabelOf action, user := some "Current User" }

/-- The `newReasonEntry` of `handleClaimAction`: present only when the
comment is truthy and the action is one of the five commenting actions. -/
def actionReasonEntry (action : ClaimAction) (comment : Option String)
    (nowIso : String) : Option TimelineEntry :=
  if comment.getD "" ≠ "" ∧ isCommentAction action = true then
    some { date := nowIso, label := reasonLabelOf action, user := some "Current User",
           comment := comment }
  else none

/-- The per-claim body of `handleClaimAction` for a non-delete action:
append the claim-level status entry, update the targeted items, then
recompute `acceptedAmt` from the item `approvedAmt`s and `deniedAmt` as the
floored difference against the freshly summed item amounts (`totalAmt`
itself is not reassigned). -/
def applyActionToClaim (claim : Claim) (action : ClaimAction)
    (comment : Option String) (itemCode : Option String) (nowIso : String) : Claim :=
  let newStatusEntry := actionStatusEntry action nowIso
  let newReasonEntry := actionReasonEntry action comment nowIso
  let items' := claim.items.map
    (updateItemForAction action newStatusEntry newReasonEntry itemCode)
  let acceptedAmt := (items'.map (fun it => it.approvedAmt.getD 0)).sum
  let totalAmt := (items'.map (·.amount)).sum
  { claim with
    statusHistory := claim.statusHistory ++ [newStatusEntry]
    items := items'
    acceptedAmt := acceptedAmt
    deniedAmt := max (totalAmt - acceptedAmt) 0 }

/-- The `handleClaimAction` handler of `src/pages/Index.tsx` over the in-memory claim
collection: `delete` removes the claim, every other action maps the
matching claim through `applyActionToClaim`. -/
def handleClaimAction (claims : List Claim) (claimId : String)
    (action : ClaimAction) (comment : Option String) (itemCode : Option String)
    (nowIso : String) : List Claim :=
  if action = .delete then claims.filter (fun c => !(c.claimId == claimId))
  else claims.map fun c =>
    if c.claimId == claimId then applyActionToClaim c action comment itemCode nowIso
    else c

/-- The `handleSubmit` gate of the `ActionModal` followed by `handleClaimAction`:
the five commenting actions are rejected up front when the comment is blank
after trimming, leaving the collection untouched; otherwise the trimmed
comment (or `undefined` when empty) is forwarded. -/
def submitAction (claims : List Claim) (claimId : String) (action : ClaimAction)
    (comment : String) (itemCode : Option String) (nowIso : String) : List Claim :=
  if isCommentAction action = true ∧ jsTrim comment = "" then claims
  else
    handleClaimAction claims claimId action
      (if jsTrim comment = "" then none else some (jsTrim comment)) itemCode nowIso

/-- The spec's item-level approval invariant: a positively approved item is
`Approved` with empty reason and query reason. -/
def itemApprovalInvariant (it : ClaimItem) : Prop :=
  0 < it.approvedAmt.getD 0 →
    it.status = some "Approved" ∧ it.reason.getD "" = "" ∧ it.queryReason.getD "" = ""

/-- The approval invariant over all items of a claim. -/
def claimApprovalInvariant (c : Claim) : Prop :=
  ∀ it ∈ c.items, itemApprovalInvariant it

/-- Sum of the item amounts of a claim item list. -/
def sumAmounts (items : List ClaimItem) : ℚ := (items.map (·.amount)).sum

/-- Sum of the item approved amounts, an absent `approvedAmt` counting as
zero. -/
def sumApproved (items : List ClaimItem) : ℚ :=
  (items.map (fun it => it.approvedAmt.getD 0)).sum

/-- The spec's claim-level totals invariant. -/
def totalsInvariant (c : Claim) : Prop :=
  c.totalAmt = sumAmounts c.items ∧ c.acceptedAmt = sumApproved c.items ∧
    c.deniedAmt = max (c.totalAmt - c.acceptedAmt) 0

/-- C2 counterexample data: a claim holding one denied line item with a
populated denial reason. -/
def deniedItemC2 : ClaimItem :=
  { itemCode := "LAB01", procedure := "C-Reactive Protein", amount := 100,
    approvedAmt := some 0, qty := 1, status := some "Denied",
    statusHistory := [{ date := "2024-03-01", label := "Denied" }],
    reason := some "insufficient documentation", approvalStatus := some "Denied",
    queryReason := some "" }

/-- C2 counterexample data: the owning claim. -/
def claimC2 : Claim :=
  { claimId := "CLM-9", patientName := "Jane Roe", dateOfService := "2024-03-01",
    totalAmt := 100, acceptedAmt := 0, deniedAmt := 100, documents := [],
    items := [deniedItemC2],
    statusHistory := [{ date := "2024-03-01", label := "Submitted" }] }

/-- C10 witness data: a claim with a single item approved at 70. -/
def itemC10 : ClaimItem :=
  { itemCode := "LAB01", procedure := "ECG", amount := 100, approvedAmt := some 70,
    qty := 1, status := some "Approved", statusHistory := [] }

/-- C10 witness data: the owning claim. -/
def claimC10 : Claim :=
  { claimId := "CLM-10", patientName := "Pat Doe", dateOfService := "2024-04-01",
    totalAmt := 100, acceptedAmt := 70, deniedAmt := 30, documents := [],
    items := [itemC10], statusHistory := [] }

/-- C4 witness data: an existing claim for the patient. -/
def claimC4 : Claim :=
  { claimId := "CLM-2024-001", patientName := "John Doe",
    dateOfService := "2024-01-15", totalAmt := 100, acceptedAmt := 0,
    deniedAmt := 100, documents := [], items := [],
    statusHistory := [{ date := "2024-01-15", label := "Submitted" }] }

/-- C4 witness data: a newly processed set for the same patient carrying a
different claim id. -/
def setResultC4 : SetResult :=
  { claimId := "CLM-2025-777", patientName := "John Doe",
    dateOfService := "2025-02-02", totalAmt := 100, acceptedAmt := 0,
    deniedAmt := 0, items := [] }

/-- The claim-document item that a query item with key `k` is matched
against: the last claim item with a non-empty code whose key equals `k`
(`Map.set` overwrites, so the last insertion wins). -/
def lastClaimMatch (claimItems : List ClaimItem) (k : String) : Option ClaimItem :=
  claimItems.reverse.find? fun it => it.itemCode != "" && (itemKey it.itemCode == k)

/-- The amount/qty transfer applied to each query item by
`mergeItemsFromSources`, phrased through `lastClaimMatch`. -/
def transferAmounts (claimItems : List ClaimItem) (q : ClaimItem) : ClaimItem :=
  match (if itemKey q.itemCode != "" then lastClaimMatch claimItems (itemKey q.itemCode)
         else none) with
  | some cm => { q with amount := cm.amount, qty := cm.qty }
  | none => q

/-- C5 counterexample data: two query items sharing the item code `A`. -/
def qDupA1 : ClaimItem :=
  { itemCode := "A", procedure := "P1", amount := 10, qty := 1, statusHistory := [] }

/-- C5 counterexample data: the second query item with the same code. -/
def qDupA2 : ClaimItem :=
  { itemCode := "A", procedure := "P2", amount := 20, qty := 1, statusHistory := [] }

/-- Whether an extraction call failed. -/
def exceptFailed {α : Type} : Except String α → Bool
  | .error _ => true
  | .ok _ => false

/-- C9 counterexample data: an existing claim whose latest status entry is
`Approved`. -/
def claimC9 : Claim :=
  { claimId := "CLM-1", patientName := "John Doe", dateOfService := "2024-01-01",
    totalAmt := 0, acceptedAmt := 0, deniedAmt := 0, documents := [], items := [],
    statusHistory := [{ date := "2024-01-01", label := "Approved" }] }

/-- C9 counterexample data: a processed document set resolving to the same
overall status `Approved`. -/
def setResultC9 : SetResult :=
  { claimId := "CLM-1", patientName := "John Doe", dateOfService := "2024-02-02",
    totalAmt := 0, acceptedAmt := 0, deniedAmt := 0, items := [],
    approvalStatus := some "Approved" }

/-- C3 counterexample data: the claim-document item (billed 100, nothing
approved in the claim document). -/
def cItemC3 : ClaimItem :=
  { itemCode := "A", procedure := "P", amount := 100, approvedAmt := some 0, qty := 1,
    status := some "Approved", statusHistory := [] }

/-- C3 counterexample data: the query-document item, approved at 50. -/
def qItemC3 : ClaimItem :=
  { itemCode := "A", procedure := "P", amount := 100, approvedAmt := some 50, qty := 1,
    status := some "Approved", reason := some "", queryReason := some "",
    statusHistory := [] }

/-- C3 counterexample data: the claim-document extraction bag. -/
def crC3 : ProcessedData :=
  { claimId := some "CLM-1", patientName := some "John Doe",
    dateOfService := some "2024-01-15", items := [cItemC3] }

/-- C3 counterexample data: the query-document extraction bag, whose
claim-level `acceptedAmt` field reads 5 while its item table shows 50
approved. -/
def qrC3 : ProcessedData := { acceptedAmt := some 5, items := [qItemC3] }

/-- C3 counterexample data: the uploaded claim document record. -/
def docC3claim : ClaimDocument :=
  { id := "d1", name := "claim.pdf", size := 1, uploadDate := "U" }

/-- C3 counterexample data: the uploaded query document record. -/
def docC3query : ClaimDocument :=
  { id := "d2", name := "query.pdf", size := 1, uploadDate := "U" }

/-- The claim collection produced by processing the C3 counterexample
document set against an empty collection. -/
def mergedC3 : List Claim :=
  (processFilesRun [] (.ok crC3) (.ok qrC3) docC3claim docC3query "CLM-FB"
    "2024-01-16" "NOW").1

/-- The projections of `resolveItem` onto the status triple. -/
theorem resolveItem_status (ed : ExtractedData) (nowIso : String) (item : RawItem) :
    (resolveItem ed nowIso item).status = some (finalTripleOf ed item).1 := rfl
theorem resolveItem_reason (ed : ExtractedData) (nowIso : String) (item : RawItem) :
    (resolveItem ed nowIso item).reason = some (finalTripleOf ed item).2.1 := rfl
theorem resolveItem_queryReason (ed : ExtractedData) (nowIso : String) (item : RawItem) :
    (resolveItem ed nowIso item).queryReason = some (finalTripleOf ed item).2.2 := rfl
theorem resolveItem_approvedAmt (ed : ExtractedData) (nowIso : String) (item : RawItem) :
    (resolveItem ed nowIso item).approvedAmt = some (normalizeCurrencyValue item.approvedAmt) :=
  rfl

/-- A positive normalized approved amount short-circuits the cascade. -/
theorem finalTripleOf_pos (ed : ExtractedData) (item : RawItem)
    (h : 0 < normalizeCurrencyValue item.approvedAmt) :
    finalTripleOf ed item = ("Approved", "", "") := by
  unfold finalTripleOf
  rw [if_pos h]

/-- A zero approved amount with a non-empty normalized reason yields
`Denied`. -/
theorem finalTripleOf_denied (ed : ExtractedData) (item : RawItem)
    (h0 : normalizeCurrencyValue item.approvedAmt = 0)
    (hr : itemNormReason ed item ≠ "") :
    finalTripleOf ed item =
      ("Denied", itemNormReason ed item, itemNormQueryReason ed item) := by
  unfold finalTripleOf
  simp [h0, hr]

/-- A zero approved amount, no reason, but a query signal yields
`Query Raised`. -/
theorem finalTripleOf_query (ed : ExtractedData) (item : RawItem)
    (h0 : normalizeCurrencyValue item.approvedAmt = 0)
    (hr : itemNormReason ed item = "")
    (hq : itemQuerySignal ed item = true) :
    finalTripleOf ed item =
      ("Query Raised", itemNormReason ed item, itemNormQueryReason ed item) := by
  unfold finalTripleOf
  simp [h0, hr, hq]

/-- If none of the three positive conditions fires, the cascade defaults to
`Approved` with cleared texts. -/
theorem finalTripleOf_default (ed : ExtractedData) (item : RawItem)
    (h1 : ¬ 0 < normalizeCurrencyValue item.approvedAmt)
    (h2 : ¬ (normalizeCurrencyValue item.approvedAmt = 0 ∧ itemNormReason ed item ≠ ""))
    (h3 : ¬ (normalizeCurrencyValue item.approvedAmt = 0 ∧ itemQuerySignal ed item = true)) :
    finalTripleOf ed item = ("Approved", "", "") := by
  unfold finalTripleOf
  rw [if_neg h1, if_neg h2, if_neg h3]

/-- C1.  For every extracted line item, the resolved status follows the
fixed priority of `extractDataWithOpenAI`: a positive normalized
`approvedAmt` yields `Approved` with both `reason` and `queryReason`
cleared; with a zero `approvedAmt` a non-empty normalized reason yields
`Denied`; otherwise a query signal (item-level query text, claim-level
query text or the additional-information fallback) yields `Query Raised`;
in every remaining case the item is `Approved` with both texts cleared. -/
theorem C1_item_status_priority (ed : ExtractedData) (nowIso : String) (item : RawItem) :
    (0 < normalizeCurrencyValue item.approvedAmt →
      (resolveItem ed nowIso item).status = some "Approved" ∧
      (resolveItem ed nowIso item).reason = some "" ∧
      (resolveItem ed nowIso item).queryReason = some "") ∧
    (normalizeCurrencyValue item.approvedAmt = 0 → itemNormReason ed item ≠ "" →
      (resolveItem ed nowIso item).status = some "Denied") ∧
    (normalizeCurrencyValue item.approvedAmt = 0 → itemNormReason ed item = "" →
      itemQuerySignal ed item = true →
      (resolveItem ed nowIso item).status = some "Query Raised") ∧
    (¬ 0 < normalizeCurrencyValue item.approvedAmt →
      ¬ (normalizeCurrencyValue item.approvedAmt = 0 ∧ itemNormReason ed item ≠ "") →
      ¬ (normalizeCurrencyValue item.approvedAmt = 0 ∧ itemQuerySignal ed item = true) →
      (resolveItem ed nowIso item).status = some "Approved" ∧
      (resolveItem ed nowIso item).reason = some "" ∧
      (resolveItem ed nowIso item).queryReason = some "") := by
  refine ⟨?_, ?_, ?_, ?_⟩
  · intro h
    rw [resolveItem_status, resolveItem_reason, resolveItem_queryReason,
      finalTripleOf_pos ed item h]
    exact ⟨rfl, rfl, rfl⟩
  · intro h0 hr
    rw [resolveItem_status, finalTripleOf_denied ed item h0 hr]
  · intro h0 hr hq
    rw [resolveItem_status, finalTripleOf_query ed item h0 hr hq]
  · intro h1 h2 h3
    rw [resolveItem_status, resolveItem_reason, resolveItem_queryReason,
      finalTripleOf_default ed item h1 h2 h3]
    exact ⟨rfl, rfl, rfl⟩

/-- Witness for C1 at the spec's concrete scenario: an item whose
`approvedAmt` is `115.00` while its `reason` is populated resolves to
`Approved` with both texts cleared. -/
theorem C1_item_status_priority_witness :
    (0 : ℚ) < normalizeCurrencyValue (CurrVal.num 115) ∧
    (resolveItem {} "T"
        { itemCode := "LAB01", amount := CurrVal.num 115,
          approvedAmt := CurrVal.num 115, qty := 1,
          reason := some "insufficient documentation" }).status = some "Approved" ∧
    (resolveItem {} "T"
        { itemCode := "LAB01", amount := CurrVal.num 115,
          approvedAmt := CurrVal.num 115, qty := 1,
          reason := some "insufficient documentation" }).reason = some "" ∧
    (resolveItem {} "T"
        { itemCode := "LAB01", amount := CurrVal.num 115,
          approvedAmt := CurrVal.num 115, qty := 1,
          reason := some "insufficient documentation" }).queryReason = some "" := by
  have h : (0 : ℚ) < normalizeCurrencyValue (CurrVal.num 115) := by
    norm_num [normalizeCurrencyValue]
  exact ⟨h, (C1_item_status_priority {} "T" _).1 h⟩

/-- C8 counterexample.  The currency normalizer is not non-negative: the
numeric input `-5` passes through unchanged, so the output is negative. -/
theorem C8_counterexample : normalizeCurrencyValue (CurrVal.num (-5)) < 0 := by
  norm_num [normalizeCurrencyValue]

/-- C8 as amended.  The currency normalizer is a total function (never
throws) whose output can be negative for inputs denoting negative numbers:
a numeric input is returned as-is, a string input is stripped of every
character other than digits, `.` and `-` and then parsed as a decimal, and
an absent or unparsable input yields `0`; in particular
`"$1,234.50" -> 1234.5`, `"-" -> 0`, `null -> 0` and `42 -> 42`. -/
theorem C8_currency_normalizer :
    normalizeCurrencyValue (CurrVal.str "$1,234.50") = 1234.5 ∧
    normalizeCurrencyValue (CurrVal.str "-") = 0 ∧
    normalizeCurrencyValue CurrVal.null = 0 ∧
    normalizeCurrencyValue (CurrVal.num 42) = 42 ∧
    (∀ v : ℚ, normalizeCurrencyValue (CurrVal.num v) = v) ∧
    (∀ s : String,
      normalizeCurrencyValue (CurrVal.str s) =
        (jsParseFloat (jsTrim (stripCurrency s))).getD 0) := by
  refine ⟨?_, ?_, rfl, rfl, fun v => rfl, fun s => rfl⟩
  · simp +decide [normalizeCurrencyValue, stripCurrency, jsTrim, jsParseFloat, digitsToNat]
    norm_num
  · simp +decide [normalizeCurrencyValue, stripCurrency, jsTrim, jsParseFloat, digitsToNat]

/-- The extraction-time resolver maintains the approval invariant. -/
theorem resolveItem_invariant (ed : ExtractedData) (nowIso : String) (item : RawItem) :
    itemApprovalInvariant (resolveItem ed nowIso item) := by
  intro h
  rw [resolveItem_approvedAmt] at h
  simp only [Option.getD_some] at h
  rw [resolveItem_status, resolveItem_reason, resolveItem_queryReason,
    finalTripleOf_pos ed item h]
  exact ⟨rfl, rfl, rfl⟩

/-- The merge-time re-resolution maintains the approval invariant. -/
theorem requeryItem_invariant (qr : ProcessedData) (ai ql nowIso : String)
    (it : ClaimItem) : itemApprovalInvariant (requeryItem qr ai ql nowIso it) := by
  intro h
  have h' : 0 < it.approvedAmt.getD 0 := h
  unfold requeryItem
  simp [h']

/-- C2 counterexample.  A reviewer `approve` action on a previously denied
item sets `approvedAmt = amount` without re-deriving `status` or clearing
`reason`, so after the action the collection holds an item with
`approvedAmt > 0` whose status is still `Denied` and whose reason is still
populated — the invariant does not survive reviewer actions. -/
theorem C2_counterexample :
    ¬ ∀ c ∈ handleClaimAction [claimC2] "CLM-9" ClaimAction.approve none
        (some "LAB01") "2024-03-02", claimApprovalInvariant c := by
  intro h
  have h1 := h (applyActionToClaim claimC2 ClaimAction.approve none
    (some "LAB01") "2024-03-02") (by simp [handleClaimAction, claimC2])
  have h2 := h1 (updateItemForAction ClaimAction.approve
    (actionStatusEntry ClaimAction.approve "2024-03-02")
    (actionReasonEntry ClaimAction.approve none "2024-03-02")
    (some "LAB01") deniedItemC2)
    (by simp [applyActionToClaim, claimC2])
  have h3 := h2 (by
    simp [updateItemForAction, targetedItem, actionReasonEntry, isCommentAction,
      deniedItemC2])
  have h4 := h3.1
  simp [updateItemForAction, targetedItem, actionReasonEntry, isCommentAction,
    deniedItemC2] at h4

/-- C2 as amended.  Every line item emitted by the extraction-time status
resolution — and every item re-resolved by the merge-time
additional-information pass — satisfies the invariant
`approvedAmt > 0 -> status = Approved with empty reason and queryReason`;
the reviewer `approve` action, however, does not re-derive the stored
status or clear the stored reason, so the invariant is not preserved by
reviewer actions. -/
theorem C2_approval_invariant (ed : ExtractedData) (nowIso : String) (item : RawItem)
    (qr : ProcessedData) (ai ql nowIso' : String) (it : ClaimItem) :
    itemApprovalInvariant (resolveItem ed nowIso item) ∧
    itemApprovalInvariant (requeryItem qr ai ql nowIso' it) :=
  ⟨resolveItem_invariant ed nowIso item, requeryItem_invariant qr ai ql nowIso' it⟩

/-- Witness for C2 as amended: a resolved item with a positive approved
amount is `Approved` with cleared texts. -/
theorem C2_approval_invariant_witness :
    (resolveItem {} "T"
        { itemCode := "A", amount := CurrVal.num 70, approvedAmt := CurrVal.num 70,
          qty := 1 }).status = some "Approved" ∧
    (resolveItem {} "T"
        { itemCode := "A", amount := CurrVal.num 70, approvedAmt := CurrVal.num 70,
          qty := 1 }).reason.getD "" = "" ∧
    (resolveItem {} "T"
        { itemCode := "A", amount := CurrVal.num 70, approvedAmt := CurrVal.num 70,
          qty := 1 }).queryReason.getD "" = "" :=
  (C2_approval_invariant {} "T"
      { itemCode := "A", amount := CurrVal.num 70, approvedAmt := CurrVal.num 70, qty := 1 }
      {} "" "" "T"
      { itemCode := "A", procedure := "", amount := 70, qty := 1,
        statusHistory := [] }).1
    (by rw [resolveItem_approvedAmt]; norm_num [normalizeCurrencyValue])

/-- C3 as amended.  After every reviewer action the acted-on claim's
`acceptedAmt` equals the sum of its items' `approvedAmt` and its
`deniedAmt` equals `max(sum of item amounts - acceptedAmt, 0)`, both
recomputed from the full item set; `totalAmt` however is left untouched by
actions, and after a document-set merge all three fields are taken from
extractor-level values rather than recomputed from the merged items. -/
theorem C3_totals_after_action (claim : Claim) (action : ClaimAction)
    (comment : Option String) (itemCode : Option String) (nowIso : String) :
    (applyActionToClaim claim action comment itemCode nowIso).acceptedAmt =
      sumApproved (applyActionToClaim claim action comment itemCode nowIso).items ∧
    (applyActionToClaim claim action comment itemCode nowIso).deniedAmt =
      max (sumAmounts (applyActionToClaim claim action comment itemCode nowIso).items -
        (applyActionToClaim claim action comment itemCode nowIso).acceptedAmt) 0 ∧
    (applyActionToClaim claim action comment itemCode nowIso).totalAmt = claim.totalAmt :=
  ⟨rfl, rfl, rfl⟩

/-- C6.  For each of `deny`, `query`, `sendToDoctor`, `sendToMedicalRecords`
and `requestDocuments`, submitting the action with a blank (empty or
whitespace-only) comment is rejected by `handleSubmit` before
`handleClaimAction` runs, leaving the claim collection completely
unchanged. -/
theorem C6_blank_comment_rejected (claims : List Claim) (claimId : String)
    (action : ClaimAction) (comment : String) (itemCode : Option String)
    (nowIso : String) (ha : isCommentAction action = true)
    (hc : jsTrim comment = "") :
    submitAction claims claimId action comment itemCode nowIso = claims := by
  unfold submitAction
  rw [if_pos ⟨ha, hc⟩]

/-- Witness for C6: a `deny` with a whitespace-only comment leaves a
one-claim collection unchanged. -/
theorem C6_blank_comment_rejected_witness :
    submitAction [claimC2] "CLM-9" ClaimAction.deny "   " (some "LAB01") "T" =
      [claimC2] :=
  C6_blank_comment_rejected [claimC2] "CLM-9" ClaimAction.deny "   " (some "LAB01") "T"
    rfl (by decide)

/-- The action mutation preserves the item code. -/
theorem updateItemForAction_itemCode (a : ClaimAction) (e : TimelineEntry)
    (r : Option TimelineEntry) (ic : Option String) (it : ClaimItem) :
    (updateItemForAction a e r ic it).itemCode = it.itemCode := by
  unfold updateItemForAction
  split
  · cases r <;> cases a <;> rfl
  · rfl

/-- A `query` action zeroes a targeted item's `approvedAmt` and leaves an untargeted
item untouched. -/
theorem updateItemForAction_query_approvedAmt (e : TimelineEntry)
    (r : Option TimelineEntry) (ic : Option String) (it : ClaimItem) :
    (updateItemForAction ClaimAction.query e r ic it).approvedAmt =
      if targetedItem ic it then some 0 else it.approvedAmt := by
  unfold updateItemForAction
  by_cases h : targetedItem ic it = true
  · rw [if_pos h, if_pos h]
  · rw [if_neg h, if_neg h]

/-- A `deny` action performs exactly the same `approvedAmt` mutation. -/
theorem updateItemForAction_deny_approvedAmt (e : TimelineEntry)
    (r : Option TimelineEntry) (ic : Option String) (it : ClaimItem) :
    (updateItemForAction ClaimAction.deny e r ic it).approvedAmt =
      if targetedItem ic it then some 0 else it.approvedAmt := by
  unfold updateItemForAction
  by_cases h : targetedItem ic it = true
  · rw [if_pos h, if_pos h]
  · rw [if_neg h, if_neg h]

/-- The items of an acted-on claim are the pointwise update of the original
items. -/
theorem applyActionToClaim_items (claim : Claim) (action : ClaimAction)
    (comment : Option String) (itemCode : Option String) (nowIso : String) :
    (applyActionToClaim claim action comment itemCode nowIso).items =
      claim.items.map
        (updateItemForAction action (actionStatusEntry action nowIso)
          (actionReasonEntry action comment nowIso) itemCode) := rfl

/-- The recomputed `acceptedAmt` of an acted-on claim. -/
theorem applyActionToClaim_acceptedAmt (claim : Claim) (action : ClaimAction)
    (comment : Option String) (itemCode : Option String) (nowIso : String) :
    (applyActionToClaim claim action comment itemCode nowIso).acceptedAmt =
      ((claim.items.map
          (updateItemForAction action (actionStatusEntry action nowIso)
            (actionReasonEntry action comment nowIso) itemCode)).map
        (fun it => it.approvedAmt.getD 0)).sum := rfl

/-- Splitting a sum over a pointwise zeroing: zeroing the elements selected
by `p` subtracts exactly their contribution. -/
theorem sum_map_ite_zero (l : List ClaimItem) (p : ClaimItem → Bool)
    (f : ClaimItem → ℚ) :
    (l.map fun x => if p x then 0 else f x).sum =
      (l.map f).sum - ((l.filter p).map f).sum := by
  induction l with
  | nil => simp
  | cons x xs ih =>
    by_cases h : p x = true
    · simp [h, ih]
    · simp [h, ih]
      ring

/-- C10.  A reviewer `query` action applies the same `approvedAmt` mutation
as `deny`: every targeted item's `approvedAmt` becomes `0`, so when the
claim's totals are recomputed a query on the unique item carrying the
targeted code drops `acceptedAmt` by exactly that item's previously
approved amount. -/
theorem C10_query_zeroes_approved (claim : Claim) (comment : Option String)
    (itemCode : Option String) (nowIso nowIso' : String) :
    ((applyActionToClaim claim ClaimAction.query comment itemCode nowIso).items.map
        (·.approvedAmt) =
      (applyActionToClaim claim ClaimAction.deny comment itemCode nowIso').items.map
        (·.approvedAmt)) ∧
    (∀ it ∈ (applyActionToClaim claim ClaimAction.query comment itemCode nowIso).items,
      targetedItem itemCode it = true → it.approvedAmt = some 0) ∧
    (∀ code a, itemCode = some code → code ≠ "" →
      (claim.items.filter (fun it => it.itemCode == code)).map
          (fun it => it.approvedAmt.getD 0) = [a] →
      (applyActionToClaim claim ClaimAction.query comment itemCode nowIso).acceptedAmt =
        sumApproved claim.items - a) := by
  refine ⟨?_, ?_, ?_⟩
  · rw [applyActionToClaim_items, applyActionToClaim_items, List.map_map, List.map_map]
    refine List.map_congr_left fun it _ => ?_
    show (updateItemForAction ClaimAction.query _ _ itemCode it).approvedAmt =
      (updateItemForAction ClaimAction.deny _ _ itemCode it).approvedAmt
    rw [updateItemForAction_query_approvedAmt, updateItemForAction_deny_approvedAmt]
  · intro it hit htgt
    rw [applyActionToClaim_items, List.mem_map] at hit
    obtain ⟨it0, _, rfl⟩ := hit
    rw [updateItemForAction_query_approvedAmt]
    have htgt0 : targetedItem itemCode it0 = true := by
      unfold targetedItem at htgt ⊢
      cases itemCode with
      | none => rfl
      | some code =>
        rw [updateItemForAction_itemCode] at htgt
        exact htgt
    rw [if_pos htgt0]
  · intro code a hic hcode hfilter
    subst hic
    rw [applyActionToClaim_acceptedAmt, List.map_map]
    have hpt : ∀ it ∈ claim.items,
        ((fun it : ClaimItem => it.approvedAmt.getD 0) ∘
          updateItemForAction ClaimAction.query
            (actionStatusEntry ClaimAction.query nowIso)
            (actionReasonEntry ClaimAction.query comment nowIso) (some code)) it =
        if targetedItem (some code) it then 0 else it.approvedAmt.getD 0 := by
      intro it _
      show (updateItemForAction _ _ _ _ it).approvedAmt.getD 0 = _
      rw [updateItemForAction_query_approvedAmt]
      by_cases h : targetedItem (some code) it = true
      · rw [if_pos h, if_pos h]
        rfl
      · rw [if_neg h, if_neg h]
    rw [List.map_congr_left hpt]
    rw [sum_map_ite_zero claim.items (targetedItem (some code))
      (fun it => it.approvedAmt.getD 0)]
    have hfc : claim.items.filter (targetedItem (some code)) =
        claim.items.filter (fun it => it.itemCode == code) := by
      refine List.filter_congr fun it _ => ?_
      have hce : (code == "") = false := beq_eq_false_iff_ne.mpr hcode
      simp only [targetedItem, hce, Bool.false_or]
    rw [hfc, hfilter]
    show sumApproved claim.items - (a + 0) = sumApproved claim.items - a
    ring

/-- Witness for C10: querying the single item approved at 70 drops the
recomputed `acceptedAmt` by exactly 70. -/
theorem C10_query_zeroes_approved_witness :
    (applyActionToClaim claimC10 ClaimAction.query (some "need info") (some "LAB01")
        "T").acceptedAmt = sumApproved claimC10.items - 70 :=
  (C10_query_zeroes_approved claimC10 (some "need info") (some "LAB01") "T" "T").2.2
    "LAB01" 70 rfl (by decide) (by simp [claimC10, itemC10])

/-- Updating the first matching claim never changes the collection's length. -/
theorem updateFirstClaim_length (p : Claim → Bool) (f : Claim → Claim)
    (l : List Claim) : (updateFirstClaim p f l).length = l.length := by
  induction l with
  | nil => rfl
  | cons c rest ih =>
    unfold updateFirstClaim
    by_cases h : p c = true
    · rw [if_pos h]
      rfl
    · rw [if_neg h]
      simpa using ih

/-- The function `updateFirstClaim` rewrites exactly the first claim satisfying the
predicate and keeps every other claim in place. -/
theorem updateFirstClaim_append (p : Claim → Bool) (f : Claim → Claim)
    (pre : List Claim) (c : Claim) (post : List Claim)
    (hpre : ∀ x ∈ pre, p x = false) (hc : p c = true) :
    updateFirstClaim p f (pre ++ c :: post) = pre ++ f c :: post := by
  induction pre with
  | nil =>
    rw [List.nil_append, List.nil_append]
    unfold updateFirstClaim
    rw [if_pos hc]
  | cons x xs ih =>
    have hx : p x = false := hpre x (List.mem_cons_self x xs)
    rw [List.cons_append, List.cons_append]
    unfold updateFirstClaim
    rw [if_neg (by simp [hx])]
    exact congrArg (x :: ·) (ih fun y hy => hpre y (List.mem_cons_of_mem x hy))

/-- C4.  Processing a document set whose claim document names an existing
patient (exact, case-sensitive string equality) rewrites that patient's
claim in place — regardless of the extracted `claimId` — and never grows
the collection; a previously-unseen patient name appends exactly one new
claim. -/
theorem C4_merge_keyed_by_patient_name (claims : List Claim) (r : SetResult)
    (nowIso : String) :
    ((∃ c ∈ claims, c.patientName = r.patientName) →
      (processFiles claims r nowIso).length = claims.length) ∧
    (∀ pre c post, claims = pre ++ c :: post →
      (∀ x ∈ pre, x.patientName ≠ r.patientName) →
      c.patientName = r.patientName →
      processFiles claims r nowIso =
        pre ++ uploaderMergeClaimData c (newClaimDataOf r nowIso) :: post) ∧
    ((∀ c ∈ claims, c.patientName ≠ r.patientName) →
      processFiles claims r nowIso = claims ++ [newClaimOf (newClaimDataOf r nowIso)]) := by
  refine ⟨?_, ?_, ?_⟩
  · rintro ⟨c, hc, he⟩
    have hany : claims.any (fun c => c.patientName == r.patientName) = true :=
      List.any_eq_true.mpr ⟨c, hc, beq_iff_eq.mpr he⟩
    unfold processFiles
    rw [if_pos hany]
    exact updateFirstClaim_length _ _ claims
  · intro pre c post hdec hpre hc
    subst hdec
    have hany : (pre ++ c :: post).any
        (fun c => c.patientName == r.patientName) = true :=
      List.any_eq_true.mpr ⟨c, by simp, beq_iff_eq.mpr hc⟩
    unfold processFiles
    rw [if_pos hany]
    exact updateFirstClaim_append _ _ pre c post
      (fun x hx => beq_eq_false_iff_ne.mpr (hpre x hx)) (beq_iff_eq.mpr hc)
  · intro hnone
    have hany : claims.any (fun c => c.patientName == r.patientName) = false := by
      rw [← Bool.not_eq_true, List.any_eq_true]
      rintro ⟨c, hc, he⟩
      exact hnone c hc (beq_iff_eq.mp he)
    unfold processFiles
    rw [if_neg (by simp [hany])]

/-- Witness for C4: the same patient name (with a different claim id) is
merged in place, and an unseen patient name appends one new claim. -/
theorem C4_merge_keyed_by_patient_name_witness :
    processFiles [claimC4] setResultC4 "T" =
      [uploaderMergeClaimData claimC4 (newClaimDataOf setResultC4 "T")] ∧
    processFiles [] setResultC4 "T" = [newClaimOf (newClaimDataOf setResultC4 "T")] :=
  ⟨(C4_merge_keyed_by_patient_name [claimC4] setResultC4 "T").2.1 [] claimC4 [] rfl
      (fun x hx => absurd hx (List.not_mem_nil x)) rfl,
    (C4_merge_keyed_by_patient_name [] setResultC4 "T").2.2
      (fun c hc => absurd hc (List.not_mem_nil c))⟩

/-- One fold step of `buildClaimMap`, read back at key `k`. -/
theorem buildClaimMap_step (m : String → Option ClaimItem) (c : ClaimItem) (k : String) :
    (if c.itemCode != "" then claimMapInsert m (itemKey c.itemCode) c else m) k =
      if (c.itemCode != "" && (itemKey c.itemCode == k)) = true then some c else m k := by
  by_cases h : (c.itemCode != "") = true
  · rw [if_pos h]
    unfold claimMapInsert
    by_cases hk : (itemKey c.itemCode == k) = true
    · rw [if_pos (beq_iff_eq.mp hk).symm, if_pos (by simp [h, hk])]
    · rw [if_neg fun he => hk (beq_iff_eq.mpr he.symm), if_neg (by simp [hk])]
  · rw [if_neg h, if_neg (by simp [Bool.not_eq_true] at h; simp [h])]

/-- Reading the fold of `buildClaimMap` at `k` returns the last matching
item, falling back to the initial map. -/
theorem buildClaimMap_foldl (claimItems : List ClaimItem)
    (m : String → Option ClaimItem) (k : String) :
    (claimItems.foldl
      (fun m it => if it.itemCode != "" then claimMapInsert m (itemKey it.itemCode) it else m)
      m) k =
    match lastClaimMatch claimItems k with
    | some v => some v
    | none => m k := by
  induction claimItems generalizing m with
  | nil => rfl
  | cons c rest ih =>
    rw [List.foldl_cons, ih]
    unfold lastClaimMatch
    rw [List.reverse_cons, List.find?_append]
    cases hrest : rest.reverse.find?
        (fun it => it.itemCode != "" && (itemKey it.itemCode == k)) with
    | some v => rfl
    | none =>
      rw [Option.none_or]
      show (if c.itemCode != "" then claimMapInsert m (itemKey c.itemCode) c else m) k =
        match List.find? (fun it => it.itemCode != "" && (itemKey it.itemCode == k)) [c] with
        | some v => some v
        | none => m k
      rw [buildClaimMap_step]
      cases hc : (c.itemCode != "" && (itemKey c.itemCode == k)) with
      | true => simp [List.find?, hc]
      | false => simp [List.find?, hc]

/-- The `claimMap` lookup is exactly the last matching claim item. -/
theorem buildClaimMap_eq_lastClaimMatch (claimItems : List ClaimItem) (k : String) :
    buildClaimMap claimItems k = lastClaimMatch claimItems k := by
  unfold buildClaimMap
  rw [buildClaimMap_foldl]
  cases lastClaimMatch claimItems k <;> rfl

/-- C5 as amended.  When the query/approval collection is non-empty the
merged collection has exactly one entry per query/approval item, in order:
the i-th entry is the i-th query item with `amount` and `qty` taken from
the last matching claim-document item (matched case-insensitively on the
trimmed code) when one exists, and from the query item itself otherwise; so
there is exactly one entry per item code whenever the query collection's
codes are distinct, and an item code appearing only in the claim document
appears in the output exactly as often as in the query collection — never.
When the query/approval collection is empty the claim-document collection
passes through unchanged. -/
theorem C5_merge_items (claimItems queryItems : List ClaimItem) :
    (queryItems = [] → mergeItemsFromSources claimItems queryItems = claimItems) ∧
    (queryItems ≠ [] → ∀ i : Nat,
      (mergeItemsFromSources claimItems queryItems)[i]? =
        (queryItems[i]?).map (transferAmounts claimItems)) ∧
    (queryItems ≠ [] → ∀ k : String,
      ((mergeItemsFromSources claimItems queryItems).filter
          (fun it => itemKey it.itemCode == k)).length =
        (queryItems.filter (fun it => itemKey it.itemCode == k)).length) := by
  have hmap : queryItems ≠ [] →
      mergeItemsFromSources claimItems queryItems =
        queryItems.map (transferAmounts claimItems) := by
    intro hne
    unfold mergeItemsFromSources
    rw [if_pos (by simpa [List.length_pos_iff_ne_nil] using hne)]
    refine List.map_congr_left fun q _ => ?_
    show (let key := itemKey q.itemCode;
      let claimMatch := if key != "" then buildClaimMap claimItems key else none;
      { q with amount := (claimMatch.map (·.amount)).getD q.amount,
               qty := (claimMatch.map (·.qty)).getD q.qty }) = transferAmounts claimItems q
    show ({ q with
      amount := (((if itemKey q.itemCode != "" then buildClaimMap claimItems (itemKey q.itemCode)
        else none)).map (·.amount)).getD q.amount,
      qty := (((if itemKey q.itemCode != "" then buildClaimMap claimItems (itemKey q.itemCode)
        else none)).map (·.qty)).getD q.qty } : ClaimItem) = transferAmounts claimItems q
    rw [show (if itemKey q.itemCode != "" then buildClaimMap claimItems (itemKey q.itemCode)
        else none) =
      (if itemKey q.itemCode != "" then lastClaimMatch claimItems (itemKey q.itemCode)
        else none) from by
        by_cases h : (itemKey q.itemCode != "") = true
        · rw [if_pos h, if_pos h, buildClaimMap_eq_lastClaimMatch]
        · rw [if_neg h, if_neg h]]
    unfold transferAmounts
    cases (if itemKey q.itemCode != "" then lastClaimMatch claimItems (itemKey q.itemCode)
        else none) with
    | some cm => rfl
    | none => rfl
  refine ⟨?_, ?_, ?_⟩
  · intro he
    subst he
    rfl
  · intro hne i
    rw [hmap hne, List.getElem?_map]
  · intro hne k
    rw [hmap hne, ← List.countP_eq_length_filter, ← List.countP_eq_length_filter,
      List.countP_map]
    refine List.countP_congr fun q _ => ?_
    show (itemKey (transferAmounts claimItems q).itemCode == k) = true ↔
      (itemKey q.itemCode == k) = true
    have hcode : (transferAmounts claimItems q).itemCode = q.itemCode := by
      unfold transferAmounts
      cases (if itemKey q.itemCode != "" then lastClaimMatch claimItems (itemKey q.itemCode)
          else none) <;> rfl
    rw [hcode]

/-- C5 counterexample.  The merge is a plain map with no deduplication:
when the item code `A` appears twice in the query/approval collection the
merged collection holds two entries for `A`, not exactly one. -/
theorem C5_counterexample :
    itemKey qDupA1.itemCode = "A" ∧ itemKey qDupA2.itemCode = "A" ∧
    ((mergeItemsFromSources [] [qDupA1, qDupA2]).filter
        (fun it => itemKey it.itemCode == "A")).length = 2 := by
  refine ⟨by decide, by decide, ?_⟩
  decide

/-- Witness for C5 as amended: with one claim item (amount 100, qty 2) and
one query item for the same code, the merged entry carries the claim
document's amount and quantity. -/
theorem C5_merge_items_witness :
    (mergeItemsFromSources
        [{ itemCode := "lab01 ", procedure := "C", amount := 100, qty := 2,
           statusHistory := [] }]
        [{ itemCode := "LAB01", procedure := "Q", amount := 5, qty := 1,
           statusHistory := [] }])[0]? =
      some { itemCode := "LAB01", procedure := "Q", amount := 100, qty := 2,
             statusHistory := [] } := by
  rw [(C5_merge_items
      [{ itemCode := "lab01 ", procedure := "C", amount := 100, qty := 2,
         statusHistory := [] }]
      [{ itemCode := "LAB01", procedure := "Q", amount := 5, qty := 1,
         statusHistory := [] }]).2.1 (by decide) 0]
  decide

/-- C7.  If either of the parallel per-document extraction calls of an
upload fails, the whole upload fails: `processFilesRun` surfaces one error
message and returns the claim collection unchanged — no partial claim is
created or merged from the document whose extraction succeeded. -/
theorem C7_extraction_failure_aborts (claims : List Claim)
    (ec eq : Except String ProcessedData) (d1 d2 : ClaimDocument)
    (fallbackId today nowIso : String)
    (h : exceptFailed ec = true ∨ exceptFailed eq = true) :
    (processFilesRun claims ec eq d1 d2 fallbackId today nowIso).1 = claims ∧
    (processFilesRun claims ec eq d1 d2 fallbackId today nowIso).2.isSome = true := by
  cases ec with
  | error e => exact ⟨rfl, rfl⟩
  | ok cr =>
    cases eq with
    | error e => exact ⟨rfl, rfl⟩
    | ok qr =>
      rcases h with h | h <;> exact absurd h (by simp [exceptFailed])

/-- Witness for C7: a failing claim-document extraction leaves a one-claim
collection untouched and reports an error. -/
theorem C7_extraction_failure_aborts_witness :
    (processFilesRun [claimC4] (Except.error "OpenAI API error")
        (Except.ok { patientName := some "John Doe" })
        { id := "d1", name := "claim.pdf", size := 1, uploadDate := "2025-01-01" }
        { id := "d2", name := "query.pdf", size := 1, uploadDate := "2025-01-01" }
        "CLM-FB" "2025-01-01" "T").1 = [claimC4] ∧
    (processFilesRun [claimC4] (Except.error "OpenAI API error")
        (Except.ok { patientName := some "John Doe" })
        { id := "d1", name := "claim.pdf", size := 1, uploadDate := "2025-01-01" }
        { id := "d2", name := "query.pdf", size := 1, uploadDate := "2025-01-01" }
        "CLM-FB" "2025-01-01" "T").2.isSome = true :=
  C7_extraction_failure_aborts [claimC4] (Except.error "OpenAI API error")
    (Except.ok { patientName := some "John Doe" })
    { id := "d1", name := "claim.pdf", size := 1, uploadDate := "2025-01-01" }
    { id := "d2", name := "query.pdf", size := 1, uploadDate := "2025-01-01" }
    "CLM-FB" "2025-01-01" "T" (Or.inl rfl)

/-- The status history written by the claimId-keyed merge, as a single
conditional: a new entry is appended exactly when the extracted status is
non-empty and differs from the label of the most recent entry. -/
theorem extractorMergeIntoExisting_statusHistory (ex : Claim) (ed : ProcessedData)
    (doc : ClaimDocument) (nowIso : String) :
    (extractorMergeIntoExisting ex ed doc nowIso).statusHistory =
      if (ed.status.getD "" != "") = true ∧
          ex.statusHistory.getLast?.all
            (fun l => l.label != ed.status.getD "") = true then
        ex.statusHistory ++
          [{ date := nowIso, label := ed.status.getD "", user := some "System",
             comment := ed.reason }]
      else ex.statusHistory := by
  unfold extractorMergeIntoExisting
  by_cases h0 : ex.documents.any (fun d => d.name == doc.name) = true
  · by_cases h1 : (ed.status.getD "" != "") = true
    · by_cases h2 : ex.statusHistory.getLast?.all
          (fun l => l.label != ed.status.getD "") = true
      · simp [h0, h1, h2]
      · simp [h0, h1, h2]
    · simp [h0, h1]
  · by_cases h1 : (ed.status.getD "" != "") = true
    · by_cases h2 : ex.statusHistory.getLast?.all
          (fun l => l.label != ed.status.getD "") = true
      · simp [h0, h1, h2]
      · simp [h0, h1, h2]
    · simp [h0, h1]

/-- C9 counterexample.  In the document-set merge (the patientName-keyed
`mergeClaimData` of the `PDFUploader`), status-history entries are
deduplicated only by exact `(date, label)` equality, so merging a set that
resolves to the same status as the latest entry still appends a new entry
whenever its timestamp is fresh: the merged history reads
`Approved, Approved`. -/
theorem C9_counterexample :
    claimC9.statusHistory.getLast?.map (fun e => e.label) = some "Approved" ∧
    (newClaimDataOf setResultC9 "2024-02-02").statusHistory.map (fun e => e.label) =
      ["Approved"] ∧
    (processFiles [claimC9] setResultC9 "2024-02-02").map
        (fun c => c.statusHistory.map (fun e => e.label)) =
      [["Approved", "Approved"]] := by
  refine ⟨rfl, rfl, ?_⟩
  decide

/-- C9 as amended.  Only the claimId-keyed single-document merge
(`mergeClaimData` of `src/utils/pdfExtractor.ts`) appends a status-history
entry exactly when the newly extracted status is non-empty and differs from
the label of the most recent entry; the patientName-keyed document-set
merge instead deduplicates by exact `(date, label)` equality and so appends
a same-status entry whenever its date is new. -/
theorem C9_status_history_no_consecutive_duplicates (ex : Claim)
    (ed : ProcessedData) (doc : ClaimDocument) (nowIso : String) :
    (ed.status.getD "" ≠ "" →
      (ex.statusHistory.getLast?.map (fun e => e.label) = some (ed.status.getD "") →
        (extractorMergeIntoExisting ex ed doc nowIso).statusHistory =
          ex.statusHistory) ∧
      (ex.statusHistory.getLast?.map (fun e => e.label) ≠ some (ed.status.getD "") →
        (extractorMergeIntoExisting ex ed doc nowIso).statusHistory =
          ex.statusHistory ++
            [{ date := nowIso, label := ed.status.getD "", user := some "System",
               comment := ed.reason }])) ∧
    (ed.status.getD "" = "" →
      (extractorMergeIntoExisting ex ed doc nowIso).statusHistory =
        ex.statusHistory) := by
  constructor
  · intro hs
    constructor
    · intro hlast
      rw [extractorMergeIntoExisting_statusHistory]
      cases hl : ex.statusHistory.getLast? with
      | none => rw [hl] at hlast; simp at hlast
      | some l =>
        rw [hl] at hlast
        simp only [Option.map_some'] at hlast
        have : l.label = ed.status.getD "" := Option.some.inj hlast
        rw [if_neg]
        rintro ⟨-, hall⟩
        simp [Option.all, this] at hall
    · intro hlast
      rw [extractorMergeIntoExisting_statusHistory, if_pos]
      refine ⟨by simpa using hs, ?_⟩
      cases hl : ex.statusHistory.getLast? with
      | none => rfl
      | some l =>
        rw [hl] at hlast
        simp only [Option.map_some'] at hlast
        have : l.label ≠ ed.status.getD "" := fun he => hlast (congrArg some he)
        simpa using this
  · intro hs
    rw [extractorMergeIntoExisting_statusHistory, if_neg]
    rintro ⟨hne, -⟩
    rw [hs] at hne
    simp at hne

/-- Witness for C9 as amended: merging an extraction whose status equals
the latest entry's label leaves the status history unchanged. -/
theorem C9_status_history_no_consecutive_duplicates_witness :
    (extractorMergeIntoExisting claimC9 { status := some "Approved" }
        { id := "d9", name := "approval.pdf", size := 1, uploadDate := "2024-02-02" }
        "2024-02-02").statusHistory = claimC9.statusHistory :=
  ((C9_status_history_no_consecutive_duplicates claimC9 { status := some "Approved" }
      { id := "d9", name := "approval.pdf", size := 1, uploadDate := "2024-02-02" }
      "2024-02-02").1 (by decide)).1 (by decide)

/-- C3 counterexample.  After a document-set merge the stored `acceptedAmt`
is the extractor's claim-level field (here 5), not the sum of the merged
items' `approvedAmt` (here 50), and `deniedAmt` is likewise taken from the
extractor — so the totals invariant fails on the freshly merged claim. -/
theorem C3_counterexample : ¬ ∀ c ∈ mergedC3, totalsInvariant c := by
  intro h
  have hmap : mergedC3.map (fun c => (c.acceptedAmt, sumApproved c.items)) = [(5, 50)] := by
    norm_num +decide [mergedC3, processFilesRun, processClaimAndQueryPDFs, promiseAll2,
      assembleSet, optTrim, strOr, jsTrim, jsToUpper, itemKey, mergeItemsFromSources,
      buildClaimMap, claimMapInsert, processFiles, newClaimDataOf, newClaimOf,
      updateFirstClaim, sumApproved, crC3, qrC3, cItemC3, qItemC3, docC3claim, docC3query]
  cases hme : mergedC3 with
  | nil => rw [hme] at hmap; simp at hmap
  | cons c rest =>
    cases rest with
    | cons c2 r2 => rw [hme] at hmap; simp at hmap
    | nil =>
      rw [hme] at hmap
      simp only [List.map_cons, List.map_nil, List.cons.injEq, Prod.mk.injEq,
        and_true] at hmap
      have hinv := h c (by rw [hme]; exact List.mem_cons_self c [])
      have h1 := hinv.2.1
      rw [hmap.1, hmap.2] at h1
      norm_num at h1

end PriorAuth
